import Mathlib

/-!
Shallow embedding of `main.py` (class-schedule scraper/filter) and proofs of
the spec's claims about it.  Strings are modelled as Lean `String`s; where the
code manipulates characters we work on `String.data : List Char`.  Python
`datetime`/`time` values produced by `strptime("%I:%M%p")` carry only an
hour and a minute (seconds are always zero), so a time-of-day is modelled as a
pair of naturals; Python's `time` comparison is lexicographic on
(hour, minute).  Fallible Python code (ValueError / KeyError / IndexError /
failed assert) is modelled with `Option`: `none` is "the run aborts here".
Lower-casing is modelled on ASCII letters, the alphabet all inputs of this
program use.
-/

namespace LPB

/-- Time-of-day value: what survives of a Python `datetime`/`time` built by
`strptime` with format `"%I:%M%p"` (hour 0-23, minute 0-59; seconds stay 0). -/
structure PyTime where
  hour : Nat
  minute : Nat
deriving DecidableEq

/-- Minutes after midnight, the spec's notion of "time-of-day value". -/
def PyTime.toMin (t : PyTime) : Nat := 60 * t.hour + t.minute

/-- Python `time.__le__`: lexicographic on (hour, minute); seconds and
microseconds are zero for every value this program builds. -/
def PyTime.le (a b : PyTime) : Bool :=
  Nat.blt a.hour b.hour || (a.hour == b.hour && Nat.ble a.minute b.minute)

/-- The whitespace set of Python `str.strip()` (ASCII part). -/
def isPyWs (c : Char) : Bool :=
  c == ' ' || c == '\t' || c == '\n' || c == '\r' || c == '\x0b' || c == '\x0c'

/-- Python `str.strip()` on the character list: drop leading and trailing
whitespace. -/
def stripChars (l : List Char) : List Char :=
  ((l.dropWhile isPyWs).reverse.dropWhile isPyWs).reverse

/-- Python `str.split("-")`: split on every dash, keeping empty segments. -/
def splitDash : List Char → List (List Char)
  | [] => [[]]
  | c :: rest =>
    if c = '-' then [] :: splitDash rest
    else
      match splitDash rest with
      | [] => [[c]]
      | h :: t => (c :: h) :: t

/-- Numeric value of an ASCII digit. -/
def digitVal (c : Char) : Option Nat :=
  if c.isDigit then some (c.toNat - 48) else none

/-- The tail of the input must be exactly `am`/`pm`, case-insensitively: the
`%p` directive of `strptime` matched against the end of the string.  Returns
`true` for pm. -/
def parseMeridTail : List Char → Option Bool
  | [a, m] =>
    if (a == 'a' || a == 'A') && (m == 'm' || m == 'M') then some false
    else if (a == 'p' || a == 'P') && (m == 'm' || m == 'M') then some true
    else none
  | _ => none

/-- Directives `%M%p` against the rest of the string: minute matches `[0-5][0-9]|[0-9]`
(the regex `strptime` compiles for `%M`), longest alternative first with
backtracking, then `%p` must consume the remainder. -/
def parseMinMerid : List Char → Option (Nat × Bool)
  | d1 :: d2 :: rest =>
    (match digitVal d1, digitVal d2 with
     | some a, some b =>
       if a ≤ 5 then (parseMeridTail rest).map (fun p => (10 * a + b, p))
       else none
     | _, _ => none)
    <|>
    (match digitVal d1 with
     | some a => (parseMeridTail (d2 :: rest)).map (fun p => (a, p))
     | none => none)
  | _ => none

/-- Format `%I:%M%p` against the whole string: hour matches `1[0-2]|0[1-9]|[1-9]`
(the regex `strptime` compiles for `%I`), then a literal `:`, then minute and
meridiem.  Result: (hour on the 12-hour dial, minute, is-pm). -/
def parseIMp : List Char → Option (Nat × Nat × Bool)
  | c1 :: c2 :: rest =>
    (if c1 == '1' && ('0' ≤ c2 && c2 ≤ '2') then
       match rest with
       | ':' :: tail => (parseMinMerid tail).map (fun (m, p) => (10 + (c2.toNat - 48), m, p))
       | _ => none
     else none)
    <|>
    (if c1 == '0' && ('1' ≤ c2 && c2 ≤ '9') then
       match rest with
       | ':' :: tail => (parseMinMerid tail).map (fun (m, p) => (c2.toNat - 48, m, p))
       | _ => none
     else none)
    <|>
    (if '1' ≤ c1 && c1 ≤ '9' then
       match c2 :: rest with
       | ':' :: tail => (parseMinMerid tail).map (fun (m, p) => (c1.toNat - 48, m, p))
       | _ => none
     else none)
  | _ => none

/-- Embeds `strptime`'s 12-hour to 24-hour conversion: `%p` pm adds 12 except at 12,
am maps 12 to 0. -/
def to24 (h12 : Nat) (isPM : Bool) : Nat :=
  if isPM then (if h12 == 12 then 12 else h12 + 12)
  else (if h12 == 12 then 0 else h12)

/-- Embeds `datetime.strptime(s, "%I:%M%p")` reduced to its time-of-day, `none` on
ValueError. -/
def strptimeIMp (s : String) : Option PyTime :=
  (parseIMp s.data).map (fun hmp => ⟨to24 hmp.1 hmp.2.2, hmp.2.1⟩)

/-- Embeds `main.parse_time_range` on the character list: split on `-`, unpack into
exactly two segments (ValueError otherwise), strip each side and parse it with
format `"%I:%M%p"`. -/
def parseTimeRangeChars (l : List Char) : Option (PyTime × PyTime) :=
  match splitDash l with
  | [start_str, end_str] =>
    match strptimeIMp ⟨stripChars start_str⟩, strptimeIMp ⟨stripChars end_str⟩ with
    | some start_time, some end_time => some (start_time, end_time)
    | _, _ => none
  | _ => none

/-- Embeds `main.parse_time_range`. -/
def parse_time_range (s : String) : Option (PyTime × PyTime) :=
  parseTimeRangeChars s.data

/-! ## Python string primitives used by the predicate -/

/-- ASCII lower-casing of one character: the fragment of `str.lower` the
program's inputs exercise. -/
def asciiLower (c : Char) : Char :=
  if 'A' ≤ c && c ≤ 'Z' then Char.ofNat (c.toNat + 32) else c

/-- Python `str.lower()` (ASCII fragment). -/
def pyLower (s : String) : String := ⟨s.data.map asciiLower⟩

/-- Does `hay` begin with `needle`? -/
def beginsWith : List Char → List Char → Bool
  | [], _ => true
  | _ :: _, [] => false
  | a :: as, b :: bs => a == b && beginsWith as bs

/-- Contiguous-substring test on character lists. -/
def hasSub (needle : List Char) : List Char → Bool
  | [] => beginsWith needle []
  | c :: rest => beginsWith needle (c :: rest) || hasSub needle rest

/-- Python `needle in hay` on strings: contiguous substring. -/
def pyIn (needle hay : String) : Bool := hasSub needle.data hay.data

/-! ## Data model: Course and Config (`main.Course`, `main.Config`) -/

/-- Embeds `main.Course`: one extracted table row.  `start_time`/`end_time` keep only
the time-of-day of the `datetime`s `parse_time_range` returns. -/
structure Course where
  class_name : String
  location : String
  instructor : String
  session : String
  gender : String
  age : String
  «open» : String
  cat2 : String
  cat3 : String
  days : String
  times : String
  fee : String
  start_time : PyTime
  end_time : PyTime
deriving DecidableEq

/-- Embeds `main.Config`: the immutable rule set. -/
structure Config where
  name_includes : List String
  location_equals : Option String
  instructors : List String
  start_after : PyTime
  end_before : PyTime
  exclude_days : List String
deriving DecidableEq

/-! ## Relevance predicate (`main.relevant`)

The five criteria are the five local booleans of `main.relevant`, under their
source names; `relevant` is their conjunction in source order. -/

/-- Criterion `correct_class` of `main.relevant`: every configured token occurs in the
lower-cased class name. -/
def correct_class (row : Course) (cfg : Config) : Bool :=
  cfg.name_includes.all (fun token => pyIn token (pyLower row.class_name))

/-- Criterion `good_location` of `main.relevant`: exact match when configured, else
true. -/
def good_location (row : Course) (cfg : Config) : Bool :=
  match cfg.location_equals with
  | none => true
  | some loc => row.location == loc

/-- Criterion `good_instructor` of `main.relevant`: `any` configured name occurs in the
lower-cased instructor field. -/
def good_instructor (row : Course) (cfg : Config) : Bool :=
  cfg.instructors.any (fun name => pyIn name (pyLower row.instructor))

/-- Criterion `good_time` of `main.relevant`: `start_time.time() >= cfg.start_after and
end_time.time() <= cfg.end_before`. -/
def good_time (row : Course) (cfg : Config) : Bool :=
  PyTime.le cfg.start_after row.start_time && PyTime.le row.end_time cfg.end_before

/-- Criterion `good_day` of `main.relevant`: `row.days not in cfg.exclude_days`. -/
def good_day (row : Course) (cfg : Config) : Bool :=
  !(cfg.exclude_days.contains row.days)

/-- Embeds `main.relevant`. -/
def relevant (row : Course) (cfg : Config) : Bool :=
  correct_class row cfg && good_location row cfg && good_time row cfg
    && good_day row cfg && good_instructor row cfg

/-! ## Record extractor (`main.extract_course_data`)

A table row is modelled by what the extractor reads from it: the list of
whitespace-stripped text segments of its `<th>` cell (`none` when the row has
no `<th>`, which fails the `assert`), and the association list from a `<td>`'s
`data-title` attribute to that cell's extracted text, in document order. -/

structure Row where
  header_segments : Option (List String)
  cells : List (String × String)

/-- Embeds `main.find_and_get_text`: first `<td>` whose `data-title` equals the
requested attribute name (`attribute` is a Lean keyword, hence `attr`);
`none` models the failed `assert`. -/
def find_and_get_text (row : Row) (attr : String) : Option String :=
  (row.cells.find? (fun c => c.fst == attr)).map Prod.snd

/-- The conditional choosing the class name from the header segments:
`parts[1] if len(parts) == 2 else parts[0]`; `none` is the IndexError
on `parts[0]` when the list is empty. -/
def pick_class_name (class_name_parts : List String) : Option String :=
  if class_name_parts.length == 2 then class_name_parts.get? 1
  else class_name_parts.get? 0

/-- Embeds `main.extract_course_data`; `none` models any of: missing `<th>`, an empty
header segment list (IndexError on `parts[0]`), a missing named cell, or a
`parse_time_range` failure. -/
def extract_course_data (row : Row) : Option Course := do
  let header ← row.header_segments
  let class_name_parts := header.map (fun item => (⟨stripChars item.data⟩ : String))
  let class_name ← pick_class_name class_name_parts
  let location ← find_and_get_text row "Location"
  let instructor ← find_and_get_text row "Instructor"
  let session ← find_and_get_text row "Session"
  let gender ← find_and_get_text row "Gender"
  let age ← find_and_get_text row "Age"
  let «open» ← find_and_get_text row "Open"
  let cat2 ← find_and_get_text row "Cat2"
  let cat3 ← find_and_get_text row "Cat3"
  let days ← find_and_get_text row "Days"
  let times ← find_and_get_text row "Times"
  let fee ← find_and_get_text row "Fee"
  let tt ← parse_time_range times
  pure ⟨class_name, location, instructor, session, gender, age, «open», cat2,
    cat3, days, times, fee, tt.1, tt.2⟩

/-- The 11 named attribute cells the extractor looks up, in source order. -/
def namedAttributes : List String :=
  ["Location", "Instructor", "Session", "Gender", "Age", "Open", "Cat2",
   "Cat3", "Days", "Times", "Fee"]

/-! ## Configuration loader (`main.Config.from_yaml`)

The YAML file is modelled by the dictionary `yaml.safe_load` returns, already
shaped by the `ConfigDict`/`ClassRules`/`ScheduleRules` TypedDicts of the
source; `none` on an `Option` field is an absent key.  The embedding fixes the
time format at its default `"%I:%M%p"` (no claim exercises the `time_format`
override, and no config in the repo sets it). -/

structure ClassRulesDict where
  name_includes : Option (List String)
  location_equals : Option String

structure ScheduleRulesDict where
  start_after : Option String
  end_before : Option String
  exclude_days : Option (List String)

structure ConfigDict where
  class_rules : Option ClassRulesDict
  instructors : Option (List String)
  schedule : Option ScheduleRulesDict

/-- Embeds `main.Config.from_yaml` after `yaml.safe_load`; `none` models the
KeyError on a missing mandatory schedule bound or a `strptime` ValueError. -/
def from_yaml (raw : ConfigDict) : Option Config := do
  let class_rules := raw.class_rules.getD ⟨none, none⟩
  let schedule := raw.schedule.getD ⟨none, none, none⟩
  let start_after_str ← schedule.start_after
  let end_before_str ← schedule.end_before
  let start_after ← strptimeIMp start_after_str
  let end_before ← strptimeIMp end_before_str
  pure ⟨(class_rules.name_includes.getD []).map pyLower,
    class_rules.location_equals,
    (raw.instructors.getD []).map pyLower,
    start_after, end_before,
    schedule.exclude_days.getD []⟩

/-! ## Sanity checks of the `strptime` embedding, mirroring CPython behavior
on the same inputs (noon/midnight handling, one-digit minutes, the rejected
hour 0 and 13, minute 60, and a three-segment split) -/

example : parse_time_range "3:15pm - 4:00pm" = some (⟨15, 15⟩, ⟨16, 0⟩) := by decide

example : parse_time_range "3:15pm" = none := by decide

example : parse_time_range "3:15-4:00pm" = none := by decide

example : parse_time_range "12:00am - 12:30pm" = some (⟨0, 0⟩, ⟨12, 30⟩) := by decide

example : parse_time_range "11:5pm-1:09am" = some (⟨23, 5⟩, ⟨1, 9⟩) := by decide

example : parse_time_range "3:60pm - 4:00pm" = none := by decide

example : parse_time_range "13:00pm - 4:00pm" = none := by decide

example : parse_time_range "0:30pm - 4:00pm" = none := by decide

example : parse_time_range "03:00pm - 4:00pm" = some (⟨15, 0⟩, ⟨16, 0⟩) := by decide

example : parse_time_range "3:15pm - 4:00pm - 5:00pm" = none := by decide

example : parse_time_range "3:15PM - 4:00Am" = some (⟨15, 15⟩, ⟨4, 0⟩) := by decide

/-! ## Helper lemmas -/

theorem splitDash_ne_nil (l : List Char) : splitDash l ≠ [] := by
  cases l with
  | nil => simp [splitDash]
  | cons c rest =>
    rw [splitDash]
    split
    · simp
    · split <;> simp

theorem splitDash_no_dash (l : List Char) (h : '-' ∉ l) : splitDash l = [l] := by
  induction l with
  | nil => rfl
  | cons c rest ih =>
    have hc : c ≠ '-' := fun hc => h (hc ▸ List.mem_cons_self c rest)
    have hrest : '-' ∉ rest := fun hm => h (List.mem_cons_of_mem c hm)
    rw [splitDash, if_neg hc, ih hrest]

theorem splitDash_append_dash (l1 l2 : List Char) (h1 : '-' ∉ l1) :
    splitDash (l1 ++ '-' :: l2) = l1 :: splitDash l2 := by
  induction l1 with
  | nil => simp [splitDash]
  | cons c rest ih =>
    have hc : c ≠ '-' := fun hc => h1 (hc ▸ List.mem_cons_self c rest)
    have hrest : '-' ∉ rest := fun hm => h1 (List.mem_cons_of_mem c hm)
    rw [List.cons_append, splitDash, if_neg hc, ih hrest]

theorem splitDash_length (l : List Char) :
    (splitDash l).length = l.count '-' + 1 := by
  induction l with
  | nil => rfl
  | cons c rest ih =>
    rw [splitDash]
    by_cases hc : c = '-'
    · subst hc
      simp [List.count_cons, ih]
    · rw [if_neg hc]
      rcases hsd : splitDash rest with _ | ⟨h, t⟩
      · exact absurd hsd (splitDash_ne_nil rest)
      · have := ih
        rw [hsd] at this
        simp only [List.length_cons] at this ⊢
        rw [List.count_cons]
        simp [hc, ← this]

theorem beginsWith_iff (n h : List Char) :
    beginsWith n h = true ↔ ∃ post, h = n ++ post := by
  induction n generalizing h with
  | nil => simp [beginsWith]
  | cons a as ih =>
    cases h with
    | nil => simp [beginsWith]
    | cons b bs =>
      rw [beginsWith, Bool.and_eq_true, beq_iff_eq, ih]
      constructor
      · rintro ⟨rfl, post, rfl⟩
        exact ⟨post, rfl⟩
      · rintro ⟨post, hpost⟩
        rw [List.cons_append] at hpost
        injection hpost with hb hbs
        exact ⟨hb.symm, post, hbs⟩

theorem hasSub_iff (n h : List Char) :
    hasSub n h = true ↔ ∃ pre post, h = pre ++ n ++ post := by
  induction h with
  | nil =>
    rw [hasSub, beginsWith_iff]
    constructor
    · rintro ⟨post, hpost⟩
      exact ⟨[], post, by simpa using hpost⟩
    · rintro ⟨pre, post, hpost⟩
      exact ⟨post, by
        rcases List.append_eq_nil.mp (List.append_eq_nil.mp hpost.symm).1 with ⟨rfl, rfl⟩
        simpa using hpost⟩
  | cons c rest ih =>
    rw [hasSub, Bool.or_eq_true, beginsWith_iff, ih]
    constructor
    · rintro (⟨post, hpost⟩ | ⟨pre, post, hpost⟩)
      · exact ⟨[], post, by simpa using hpost⟩
      · exact ⟨c :: pre, post, by simp [hpost]⟩
    · rintro ⟨pre, post, hpost⟩
      cases pre with
      | nil => exact Or.inl ⟨post, by simpa using hpost⟩
      | cons p ps =>
        right
        rw [List.cons_append, List.cons_append] at hpost
        injection hpost with hc hrest
        exact ⟨ps, post, by simp [hrest]⟩

theorem bind_eq_some_step {α β : Type} {o : Option α} {f : α → Option β} {b : β}
    (h : o >>= f = some b) : ∃ a, o = some a ∧ f a = some b := by
  cases o with
  | none => exact Option.noConfusion h
  | some a => exact ⟨a, rfl, h⟩

theorem PyTime.le_iff_toMin (a b : PyTime) (ha : a.minute < 60) (hb : b.minute < 60) :
    PyTime.le a b = true ↔ a.toMin ≤ b.toMin := by
  rw [PyTime.le, PyTime.toMin, PyTime.toMin, Bool.or_eq_true, Bool.and_eq_true,
    Nat.blt_eq, beq_iff_eq, Nat.ble_eq]
  omega

/-! ## Example values (§8 of the spec) -/

/-- The §8 example Configuration: name_includes=["toddler"],
location_equals="SB", start_after=15:45, end_before=19:00, exclude_days=[],
instructors=[]. -/
def specCfg : Config :=
  ⟨["toddler"], some "SB", [], ⟨15, 45⟩, ⟨19, 0⟩, []⟩

/-- The §8 example Course: class_name="Toddler Dance Party", location="SB",
days="Tue", start 16:00, end 16:45, instructor="Jane" (fields §8 leaves
unspecified are filled with plain values). -/
def specCourse : Course :=
  ⟨"Toddler Dance Party", "SB", "Jane", "Fall", "All", "3-5", "Yes", "Dance",
   "Toddler", "Tue", "4:00pm - 4:45pm", "$60", ⟨16, 0⟩, ⟨16, 45⟩⟩

/-! ## The claims -/

/-- C1 (code_bug evidence): on the §8 example pair, the code's
`good_instructor` is `any` over an empty instructor list, hence `false`, so
`relevant` returns `false` even though the other four criteria all hold —
contradicting the spec's "empty instructor list imposes no constraint" and
its §8 expected value `true`. -/
theorem relevant_spec_example_empty_instructors :
    correct_class specCourse specCfg = true ∧
    good_location specCourse specCfg = true ∧
    good_time specCourse specCfg = true ∧
    good_day specCourse specCfg = true ∧
    good_instructor specCourse specCfg = false ∧
    relevant specCourse specCfg = false := by
  decide

/-- The C1 failure is universal: whenever no instructors are configured,
`relevant` rejects every Course, because `any` over an empty list is false. -/
theorem relevant_always_false_of_no_instructors (row : Course) (cfg : Config)
    (h : cfg.instructors = []) : relevant row cfg = false := by
  rw [relevant, good_instructor, h]
  simp

theorem relevant_always_false_of_no_instructors_witness :
    relevant specCourse specCfg = false :=
  relevant_always_false_of_no_instructors specCourse specCfg rfl

/-- C6: `good_day` rejects a Course exactly when its raw `days` string is
literally equal to some member of `exclude_days`; in particular a Course with
days="MWF" is excluded when exclude_days is ["MWF"] but not when it is
["M", "W"]. -/
theorem good_day_exact_string_match (row : Course) (cfg : Config) :
    (good_day row cfg = false ↔ row.days ∈ cfg.exclude_days) ∧
    (row.days = "MWF" → cfg.exclude_days = ["MWF"] → good_day row cfg = false) ∧
    (row.days = "MWF" → cfg.exclude_days = ["M", "W"] → good_day row cfg = true) := by
  have hiff : good_day row cfg = false ↔ row.days ∈ cfg.exclude_days := by
    rw [good_day, Bool.not_eq_false']
    exact List.elem_iff
  refine ⟨hiff, ?_, ?_⟩
  · intro hd he
    rw [hiff, hd, he]
    simp
  · intro hd he
    rw [good_day, hd, he]
    decide

theorem good_day_exact_string_match_witness :
    good_day ⟨"Kids Ballet", "SB", "Jane", "Fall", "All", "3-5", "Yes",
      "Dance", "Kids", "MWF", "4:00pm - 4:45pm", "$60", ⟨16, 0⟩, ⟨16, 45⟩⟩
      ⟨[], none, [], ⟨15, 45⟩, ⟨19, 0⟩, ["M", "W"]⟩ = true :=
  (good_day_exact_string_match _ _).2.2 rfl rfl

/-- C7: for Courses and Configurations carrying genuine clock values
(minute < 60), `good_time` holds iff the Course's start is at or after
`start_after` and its end is at or before `end_before`, measured in minutes
after midnight — both bounds inclusive, so equality at either bound passes. -/
theorem good_time_inclusive_window (row : Course) (cfg : Config)
    (h1 : row.start_time.minute < 60) (h2 : row.end_time.minute < 60)
    (h3 : cfg.start_after.minute < 60) (h4 : cfg.end_before.minute < 60) :
    (good_time row cfg = true ↔
      (cfg.start_after.toMin ≤ row.start_time.toMin ∧
        row.end_time.toMin ≤ cfg.end_before.toMin)) ∧
    (row.start_time = cfg.start_after → row.end_time = cfg.end_before →
      good_time row cfg = true) := by
  have hiff : good_time row cfg = true ↔
      (cfg.start_after.toMin ≤ row.start_time.toMin ∧
        row.end_time.toMin ≤ cfg.end_before.toMin) := by
    rw [good_time, Bool.and_eq_true, PyTime.le_iff_toMin _ _ h3 h1,
      PyTime.le_iff_toMin _ _ h2 h4]
  refine ⟨hiff, fun hs he => ?_⟩
  rw [hiff, hs, he]
  exact ⟨le_refl _, le_refl _⟩

theorem good_time_inclusive_window_witness :
    good_time specCourse specCfg = true ∧
    good_time ⟨"Kids Ballet", "SB", "Jane", "Fall", "All", "3-5", "Yes",
      "Dance", "Kids", "Tue", "3:45pm - 7:00pm", "$60", ⟨15, 45⟩, ⟨19, 0⟩⟩
      specCfg = true :=
  ⟨(good_time_inclusive_window specCourse specCfg (by decide) (by decide)
      (by decide) (by decide)).1.mpr (by decide),
   (good_time_inclusive_window _ specCfg (by decide) (by decide)
      (by decide) (by decide)).2 rfl rfl⟩

/-- C8: `correct_class` holds iff every configured token occurs as a
contiguous substring of the lower-cased class name, and an empty
`name_includes` list accepts every Course. -/
theorem correct_class_substring_conj (row : Course) (cfg : Config) :
    (correct_class row cfg = true ↔
      ∀ token ∈ cfg.name_includes,
        ∃ pre post, (pyLower row.class_name).data = pre ++ token.data ++ post) ∧
    (cfg.name_includes = [] → correct_class row cfg = true) := by
  have hiff : correct_class row cfg = true ↔
      ∀ token ∈ cfg.name_includes,
        ∃ pre post, (pyLower row.class_name).data = pre ++ token.data ++ post := by
    rw [correct_class, List.all_eq_true]
    constructor
    · intro h token htok
      exact (hasSub_iff _ _).mp (h token htok)
    · intro h token htok
      exact (hasSub_iff _ _).mpr (h token htok)
  exact ⟨hiff, fun h => by rw [correct_class, h]; rfl⟩

theorem correct_class_substring_conj_witness :
    ∃ pre post,
      (pyLower specCourse.class_name).data = pre ++ "toddler".data ++ post :=
  (correct_class_substring_conj specCourse specCfg).1.mp (by decide)
    "toddler" (by decide)

/-- C4: whenever one of the 11 named attribute cells is absent from a row,
`extract_course_data` fails outright; it never substitutes a default for the
missing field. -/
theorem extract_missing_cell (row : Row) (attr : String)
    (hmem : attr ∈ namedAttributes)
    (hnone : find_and_get_text row attr = none) :
    extract_course_data row = none := by
  cases hx : extract_course_data row with
  | none => rfl
  | some c =>
    exfalso
    rw [extract_course_data] at hx
    obtain ⟨header, -, hx⟩ := bind_eq_some_step hx
    obtain ⟨cn, -, hx⟩ := bind_eq_some_step hx
    obtain ⟨loc, hloc, hx⟩ := bind_eq_some_step hx
    obtain ⟨ins, hins, hx⟩ := bind_eq_some_step hx
    obtain ⟨ses, hses, hx⟩ := bind_eq_some_step hx
    obtain ⟨gen, hgen, hx⟩ := bind_eq_some_step hx
    obtain ⟨ag, hag, hx⟩ := bind_eq_some_step hx
    obtain ⟨op, hop, hx⟩ := bind_eq_some_step hx
    obtain ⟨c2, hc2, hx⟩ := bind_eq_some_step hx
    obtain ⟨c3, hc3, hx⟩ := bind_eq_some_step hx
    obtain ⟨dys, hdys, hx⟩ := bind_eq_some_step hx
    obtain ⟨tms, htms, hx⟩ := bind_eq_some_step hx
    obtain ⟨fe, hfe, -⟩ := bind_eq_some_step hx
    simp only [namedAttributes, List.mem_cons, List.not_mem_nil, or_false] at hmem
    rcases hmem with rfl | rfl | rfl | rfl | rfl | rfl | rfl | rfl | rfl | rfl | rfl
    · rw [hnone] at hloc; exact Option.noConfusion hloc
    · rw [hnone] at hins; exact Option.noConfusion hins
    · rw [hnone] at hses; exact Option.noConfusion hses
    · rw [hnone] at hgen; exact Option.noConfusion hgen
    · rw [hnone] at hag; exact Option.noConfusion hag
    · rw [hnone] at hop; exact Option.noConfusion hop
    · rw [hnone] at hc2; exact Option.noConfusion hc2
    · rw [hnone] at hc3; exact Option.noConfusion hc3
    · rw [hnone] at hdys; exact Option.noConfusion hdys
    · rw [hnone] at htms; exact Option.noConfusion htms
    · rw [hnone] at hfe; exact Option.noConfusion hfe

/-- A complete set of the 11 named cells, used by concrete-row witnesses. -/
def allCells : List (String × String) :=
  [("Location", "SB"), ("Instructor", "Jane"), ("Session", "Fall"),
   ("Gender", "All"), ("Age", "3-5"), ("Open", "Yes"), ("Cat2", "Dance"),
   ("Cat3", "Toddler"), ("Days", "Tue"), ("Times", "3:15pm - 4:00pm"),
   ("Fee", "$60")]

/-- A row whose `Fee` cell is missing (all other named cells present). -/
def rowMissingFee : Row :=
  ⟨some ["Toddler Dance"],
   [("Location", "SB"), ("Instructor", "Jane"), ("Session", "Fall"),
    ("Gender", "All"), ("Age", "3-5"), ("Open", "Yes"), ("Cat2", "Dance"),
    ("Cat3", "Toddler"), ("Days", "Tue"), ("Times", "3:15pm - 4:00pm")]⟩

theorem extract_missing_cell_witness :
    extract_course_data rowMissingFee = none :=
  extract_missing_cell rowMissingFee "Fee" (by decide) (by decide)

/-- C9: a two-segment header gives the second segment as `class_name`; a
one-segment header gives that segment verbatim (segments are the
whitespace-trimmed strings bs4 yields, so they are `strip` fixpoints). -/
theorem extract_header_segments (row : Row) (a b : String) (c : Course)
    (ha : stripChars a.data = a.data) (hb : stripChars b.data = b.data) :
    (row.header_segments = some [a, b] → extract_course_data row = some c →
      c.class_name = b) ∧
    (row.header_segments = some [a] → extract_course_data row = some c →
      c.class_name = a) := by
  constructor
  · intro hh hx
    rw [extract_course_data] at hx
    obtain ⟨header, hheader, hx⟩ := bind_eq_some_step hx
    rw [hh] at hheader
    injection hheader with hheader
    subst hheader
    obtain ⟨cn, hcn, hx⟩ := bind_eq_some_step hx
    obtain ⟨loc, -, hx⟩ := bind_eq_some_step hx
    obtain ⟨ins, -, hx⟩ := bind_eq_some_step hx
    obtain ⟨ses, -, hx⟩ := bind_eq_some_step hx
    obtain ⟨gen, -, hx⟩ := bind_eq_some_step hx
    obtain ⟨ag, -, hx⟩ := bind_eq_some_step hx
    obtain ⟨op, -, hx⟩ := bind_eq_some_step hx
    obtain ⟨c2, -, hx⟩ := bind_eq_some_step hx
    obtain ⟨c3, -, hx⟩ := bind_eq_some_step hx
    obtain ⟨dys, -, hx⟩ := bind_eq_some_step hx
    obtain ⟨tms, -, hx⟩ := bind_eq_some_step hx
    obtain ⟨fe, -, hx⟩ := bind_eq_some_step hx
    obtain ⟨tt, -, hpure⟩ := bind_eq_some_step hx
    injection hcn with hcn
    have hcn' : String.mk (stripChars b.data) = cn := hcn
    injection hpure with hpure
    subst hpure
    show cn = b
    rw [← hcn', hb]
  · intro hh hx
    rw [extract_course_data] at hx
    obtain ⟨header, hheader, hx⟩ := bind_eq_some_step hx
    rw [hh] at hheader
    injection hheader with hheader
    subst hheader
    obtain ⟨cn, hcn, hx⟩ := bind_eq_some_step hx
    obtain ⟨loc, -, hx⟩ := bind_eq_some_step hx
    obtain ⟨ins, -, hx⟩ := bind_eq_some_step hx
    obtain ⟨ses, -, hx⟩ := bind_eq_some_step hx
    obtain ⟨gen, -, hx⟩ := bind_eq_some_step hx
    obtain ⟨ag, -, hx⟩ := bind_eq_some_step hx
    obtain ⟨op, -, hx⟩ := bind_eq_some_step hx
    obtain ⟨c2, -, hx⟩ := bind_eq_some_step hx
    obtain ⟨c3, -, hx⟩ := bind_eq_some_step hx
    obtain ⟨dys, -, hx⟩ := bind_eq_some_step hx
    obtain ⟨tms, -, hx⟩ := bind_eq_some_step hx
    obtain ⟨fe, -, hx⟩ := bind_eq_some_step hx
    obtain ⟨tt, -, hpure⟩ := bind_eq_some_step hx
    injection hcn with hcn
    have hcn' : String.mk (stripChars a.data) = cn := hcn
    injection hpure with hpure
    subst hpure
    show cn = a
    rw [← hcn', ha]

/-- The §8 two-segment-header row: badge "NEW" plus the class name. -/
def rowTwoSeg : Row := ⟨some ["NEW", "Toddler Dance"], allCells⟩

/-- The same row with a one-segment header. -/
def rowOneSeg : Row := ⟨some ["Toddler Dance"], allCells⟩

/-- The Course both example rows extract to. -/
def courseToddler : Course :=
  ⟨"Toddler Dance", "SB", "Jane", "Fall", "All", "3-5", "Yes", "Dance",
   "Toddler", "Tue", "3:15pm - 4:00pm", "$60", ⟨15, 15⟩, ⟨16, 0⟩⟩

theorem extract_header_segments_witness :
    courseToddler.class_name = "Toddler Dance" ∧
    extract_course_data rowTwoSeg = some courseToddler ∧
    extract_course_data rowOneSeg = some courseToddler :=
  ⟨(extract_header_segments rowTwoSeg "NEW" "Toddler Dance" courseToddler
      (by decide) (by decide)).1 rfl (by decide),
   by decide, by decide⟩

/-- C10 (implicit): a row whose header cell yields zero text segments makes
`extract_course_data` fail (the `parts[0]` indexing has no value); it does not
return a Course with an empty class name. -/
theorem extract_empty_header (row : Row)
    (h : row.header_segments = some []) : extract_course_data row = none := by
  rw [extract_course_data, h]
  rfl

/-- A row with an empty header segment list but all 11 named cells present. -/
def rowEmptyHeader : Row := ⟨some [], allCells⟩

theorem extract_empty_header_witness :
    extract_course_data rowEmptyHeader = none :=
  extract_empty_header rowEmptyHeader rfl

/-- C2: on every well-formed input — two dash-free sides around a single "-",
each side a 12-hour clock time after stripping surrounding whitespace —
`parse_time_range` returns exactly the ordered pair of the two sides' clock
values, first side first; no relation between the two values is imposed, so
the end may lie before the start. -/
theorem parse_time_range_well_formed (l1 l2 : List Char) (t1 t2 : PyTime)
    (h1 : '-' ∉ l1) (h2 : '-' ∉ l2)
    (hp1 : strptimeIMp ⟨stripChars l1⟩ = some t1)
    (hp2 : strptimeIMp ⟨stripChars l2⟩ = some t2) :
    parseTimeRangeChars (l1 ++ '-' :: l2) = some (t1, t2) := by
  rw [parseTimeRangeChars, splitDash_append_dash l1 l2 h1, splitDash_no_dash l2 h2]
  simp only [hp1, hp2]

theorem parse_time_range_well_formed_witness :
    parse_time_range "3:15pm - 4:00pm" = some (⟨15, 15⟩, ⟨16, 0⟩) ∧
    parse_time_range "4:00pm - 3:15pm" = some (⟨16, 0⟩, ⟨15, 15⟩) := by
  constructor
  · have h := parse_time_range_well_formed "3:15pm ".data " 4:00pm".data
      ⟨15, 15⟩ ⟨16, 0⟩ (by decide) (by decide) (by decide) (by decide)
    rw [parse_time_range,
      show "3:15pm - 4:00pm".data = "3:15pm ".data ++ '-' :: " 4:00pm".data from by decide]
    exact h
  · have h := parse_time_range_well_formed "4:00pm ".data " 3:15pm".data
      ⟨16, 0⟩ ⟨15, 15⟩ (by decide) (by decide) (by decide) (by decide)
    rw [parse_time_range,
      show "4:00pm - 3:15pm".data = "4:00pm ".data ++ '-' :: " 3:15pm".data from by decide]
    exact h

/-- C3: `parse_time_range` yields no pair exactly when splitting on "-" gives
one segment (no separator), or more than two segments, or one of exactly two
segments fails the 12-hour-with-meridiem parse after stripping; on every
other input (two segments, both parseable) it succeeds.  One segment is
precisely the absence of "-", and the spec's two malformed examples fail. -/
theorem parse_time_range_failure_cases :
    (∀ l : List Char,
      (parseTimeRangeChars l = none ↔
        ((splitDash l).length = 1 ∨ 2 < (splitDash l).length ∨
          ∃ s e, splitDash l = [s, e] ∧
            (strptimeIMp ⟨stripChars s⟩ = none ∨ strptimeIMp ⟨stripChars e⟩ = none))) ∧
      ((splitDash l).length = 1 ↔ '-' ∉ l)) ∧
    parse_time_range "3:15pm" = none ∧
    parse_time_range "3:15-4:00pm" = none := by
  refine ⟨fun l => ⟨?_, ?_⟩, by decide, by decide⟩
  · rcases hsd : splitDash l with _ | ⟨s, t⟩
    · exact absurd hsd (splitDash_ne_nil l)
    rcases t with _ | ⟨e, t'⟩
    · rw [parseTimeRangeChars, hsd]
      simp [hsd]
    rcases t' with _ | ⟨x, t''⟩
    · rw [parseTimeRangeChars, hsd]
      rcases hps : strptimeIMp ⟨stripChars s⟩ with _ | ts <;>
        rcases hpe : strptimeIMp ⟨stripChars e⟩ with _ | te <;>
          simp [hsd, hps, hpe]
      · exact ⟨s, e, ⟨rfl, rfl⟩, Or.inl hps⟩
      · exact ⟨s, e, ⟨rfl, rfl⟩, Or.inl hps⟩
      · exact ⟨s, e, ⟨rfl, rfl⟩, Or.inr hpe⟩
    · rw [parseTimeRangeChars, hsd]
      simp [hsd]
  · rw [splitDash_length]
    constructor
    · intro h
      exact List.count_eq_zero.mp (by omega)
    · intro h
      rw [List.count_eq_zero.mpr h]

/-- C5: a configuration input with no class_rules group and no instructors
group (but with the mandatory schedule bounds, or the loader fails) loads to
a Configuration with empty name_includes, empty instructors and no
location_equals, and for that Configuration the name and location criteria
accept every Course. -/
theorem from_yaml_defaults (raw : ConfigDict) (cfg : Config)
    (hcr : raw.class_rules = none) (hins : raw.instructors = none)
    (hy : from_yaml raw = some cfg) :
    cfg.name_includes = [] ∧ cfg.instructors = [] ∧
      cfg.location_equals = none ∧
      ∀ course : Course,
        correct_class course cfg = true ∧ good_location course cfg = true := by
  rw [from_yaml, hcr, hins] at hy
  obtain ⟨sa, -, hy⟩ := bind_eq_some_step hy
  obtain ⟨eb, -, hy⟩ := bind_eq_some_step hy
  obtain ⟨sat, -, hy⟩ := bind_eq_some_step hy
  obtain ⟨ebt, -, hy⟩ := bind_eq_some_step hy
  injection hy with hy
  subst hy
  exact ⟨rfl, rfl, rfl, fun course => ⟨rfl, rfl⟩⟩

/-- The config input of the C5 round-trip example: class_rules and
instructors absent, schedule with only the two mandatory bounds. -/
def rawSpec : ConfigDict := ⟨none, none, some ⟨some "3:45pm", some "7:00pm", none⟩⟩

/-- The Configuration the C5 example loads to. -/
def cfgNoRules : Config := ⟨[], none, [], ⟨15, 45⟩, ⟨19, 0⟩, []⟩

theorem from_yaml_defaults_witness :
    from_yaml rawSpec = some cfgNoRules ∧
    cfgNoRules.name_includes = [] ∧ cfgNoRules.instructors = [] ∧
    cfgNoRules.location_equals = none ∧
    correct_class specCourse cfgNoRules = true ∧
    good_location specCourse cfgNoRules = true :=
  have h := from_yaml_defaults rawSpec cfgNoRules rfl rfl (by decide)
  ⟨by decide, h.1, h.2.1, h.2.2.1, (h.2.2.2 specCourse).1, (h.2.2.2 specCourse).2⟩

end LPB
